import Mathlib

/-!
Verification of the client-side state/query layer of the Budgie shopping
app: the products (catalog) slice, the cart slice, the wishlist alert
predicate and the derived view computations (catalog filtering/sorting,
cart totals, wishlist ordering).

JavaScript numbers are modelled as exact rationals, JavaScript strings as
lists of characters, and the injected Math.random() draws as explicit
rational parameters in the half-open unit interval.
-/

set_option allowUnsafeReducibility true
attribute [local semireducible] Rat.mul Rat.add Rat.sub Rat.div Rat.inv Rat.neg

/-- JavaScript strings, modelled as lists of characters. -/
abbrev Str := List Char

/-- The Math.floor of an exact rational value. -/
def mathFloor (q : ℚ) : ℤ := Rat.floor q

/-- The Math.round of an exact rational value: floor of the value plus one half. -/
def mathRound (q : ℚ) : ℤ := Rat.floor (q + 1 / 2)

/-- Number(x.toFixed(2)): rounding to two decimal places. -/
def round2 (q : ℚ) : ℚ := (mathRound (q * 100) : ℚ) / 100

/-- The derived discount sub-record attached to every product. -/
structure Discount where
  percentage : ℤ
  discountedPrice : ℚ
  savings : ℚ
deriving DecidableEq

/-- generateDiscount from productsSlice.ts, with the Math.random() draw
injected as the parameter r. -/
def generateDiscount (price : ℚ) (r : ℚ) : Discount :=
  let minDiscount : ℚ := 10
  let maxDiscount : ℚ := 50
  let randomDiscount : ℤ := mathFloor (r * (maxDiscount - minDiscount + 1) + minDiscount)
  let roundedDiscount : ℤ := mathRound ((randomDiscount : ℚ) / 5) * 5
  let discountedPrice : ℚ := round2 (price * (1 - (roundedDiscount : ℚ) / 100))
  let savings : ℚ := round2 (price - discountedPrice)
  { percentage := roundedDiscount, discountedPrice := discountedPrice, savings := savings }

/-- A product held by the catalog store. -/
structure Product where
  id : ℤ
  title : Str
  price : ℚ
  description : Str
  category : Str
  image : Str
  discount : Discount
deriving DecidableEq

/-- A raw product record as returned by the upstream endpoint, before the
fetch thunk attaches a discount and capitalizes the category. -/
structure RawProduct where
  id : ℤ
  title : Str
  price : ℚ
  description : Str
  category : Str
  image : Str
deriving DecidableEq

/-- The request lifecycle status of the catalog store. -/
inductive FetchStatus where
  | idle
  | loading
  | succeeded
  | failed
deriving DecidableEq

/-- The four sort modes of the catalog filter state. -/
inductive SortBy where
  | biggestDiscount
  | biggestSaving
  | lowestPrice
  | highestPrice
deriving DecidableEq

/-- The filter/sort/search criteria of the catalog store. -/
structure Filters where
  category : List Str
  sortBy : SortBy
  searchQuery : Str
deriving DecidableEq

/-- The catalog store state. -/
structure ProductsState where
  items : List Product
  status : FetchStatus
  error : Option Str
  filters : Filters
deriving DecidableEq

/-- The initial catalog store state from productsSlice.ts. -/
def productsInitialState : ProductsState :=
  { items := []
    status := .idle
    error := none
    filters := { category := [], sortBy := .biggestDiscount, searchQuery := [] } }

/-- str.split(' ') on a character list: splits at every single space,
keeping empty words between consecutive spaces. -/
def splitOnSpace : Str → List Str
  | [] => [[]]
  | c :: cs =>
    match splitOnSpace cs with
    | [] => [[c]]
    | w :: ws => if c = ' ' then [] :: w :: ws else (c :: w) :: ws

/-- word.charAt(0).toUpperCase() + word.slice(1). -/
def capitalizeWord : Str → Str
  | [] => []
  | c :: cs => Char.toUpper c :: cs

/-- capitalizeWords from productsSlice.ts: capitalize the first character of
every space-separated word. -/
def capitalizeWords (s : Str) : Str :=
  List.intercalate [' '] ((splitOnSpace s).map capitalizeWord)

/-- The successful branch of the fetchProducts thunk: map each raw record,
capitalizing its category and attaching a freshly generated discount. The
Math.random() draws are injected as rng, one draw per list position,
starting at index i. -/
def fetchTransform (rng : Nat → ℚ) : Nat → List RawProduct → List Product
  | _, [] => []
  | i, p :: ps =>
    { id := p.id, title := p.title, price := p.price, description := p.description
      category := capitalizeWords p.category, image := p.image
      discount := generateDiscount p.price (rng i) } :: fetchTransform rng (i + 1) ps

/-- The regenerateDiscounts reducer body: recompute the discount of every
held product with a fresh draw, leaving every other field alone. -/
def regenerateItems (rng : Nat → ℚ) : Nat → List Product → List Product
  | _, [] => []
  | i, p :: ps =>
    { p with discount := generateDiscount p.price (rng i) } :: regenerateItems rng (i + 1) ps

/-- The generic failure message used when the upstream error lacks one. -/
def failedFetchMsg : Str := "Failed to fetch products".data

/-- The actions handled by the products slice: its four named reducers plus
the three lifecycle transitions of the fetchProducts thunk. The payload of a
fulfilled action is the already-transformed product list; a rejected action
carries the optional message of the serialized upstream error. -/
inductive ProductsAction where
  | setCategory (category : Str)
  | setSortBy (mode : SortBy)
  | setSearchQuery (text : Str)
  | regenerateDiscounts (rng : Nat → ℚ)
  | fetchPending
  | fetchFulfilled (payload : List Product)
  | fetchRejected (message : Option Str)

/-- The products slice reducer from productsSlice.ts. -/
def productsReducer (a : ProductsAction) (s : ProductsState) : ProductsState :=
  match a with
  | .setCategory c =>
    { s with filters := { s.filters with category :=
        if (s.filters.category.contains c) then s.filters.category.erase c
        else s.filters.category ++ [c] } }
  | .setSortBy m => { s with filters := { s.filters with sortBy := m } }
  | .setSearchQuery t => { s with filters := { s.filters with searchQuery := t } }
  | .regenerateDiscounts rng => { s with items := regenerateItems rng 0 s.items }
  | .fetchPending => { s with status := .loading }
  | .fetchFulfilled payload => { s with status := .succeeded, items := payload }
  | .fetchRejected msg => { s with status := .failed, error := some (msg.getD failedFetchMsg) }

/-- A cart line item: a product snapshot plus a quantity. -/
structure CartItem where
  id : ℤ
  title : Str
  price : ℚ
  image : Str
  quantity : ℚ
  discount : Discount
deriving DecidableEq

/-- The addToCart payload: a cart item without its quantity field. -/
structure CartSnapshot where
  id : ℤ
  title : Str
  price : ℚ
  image : Str
  discount : Discount
deriving DecidableEq

/-- The cart store state. -/
structure CartState where
  items : List CartItem
  totalItems : ℚ
  totalPrice : ℚ
  totalDiscount : ℚ
  isOpen : Bool
deriving DecidableEq

/-- The initial cart state from the cart slice. -/
def cartInitialState : CartState :=
  { items := [], totalItems := 0, totalPrice := 0, totalDiscount := 0, isOpen := false }

/-- The accumulator shape of calculateTotals. -/
structure Totals where
  totalItems : ℚ
  totalPrice : ℚ
  totalDiscount : ℚ
deriving DecidableEq

/-- calculateTotals from the cart slice: a single reduce over the items. -/
def calculateTotals (items : List CartItem) : Totals :=
  items.foldl
    (fun acc item =>
      let itemTotal := item.price * item.quantity
      let discountedTotal := item.discount.discountedPrice * item.quantity
      { totalItems := acc.totalItems + item.quantity
        totalPrice := acc.totalPrice + itemTotal
        totalDiscount := acc.totalDiscount + (itemTotal - discountedTotal) })
    { totalItems := 0, totalPrice := 0, totalDiscount := 0 }

/-- In-place mutation of the first item with the given id, as done on the
result of items.find in addToCart and updateQuantity. -/
def mutateFirst (id : ℤ) (f : CartItem → CartItem) : List CartItem → List CartItem
  | [] => []
  | it :: rest =>
    if it.id = id then f it :: rest
    else it :: mutateFirst id f rest

/-- The five actions of the cart slice. -/
inductive CartAction where
  | addToCart (payload : CartSnapshot)
  | removeFromCart (id : ℤ)
  | updateQuantity (id : ℤ) (quantity : ℚ)
  | clearCart
  | setCartOpen (isOpen : Bool)
deriving DecidableEq

/-- Rebuild a cart state from an item list by recomputing the three stored
totals with calculateTotals, as each mutating cart reducer does. -/
def withTotals (items : List CartItem) (isOpen : Bool) : CartState :=
  let t := calculateTotals items
  { items := items, totalItems := t.totalItems, totalPrice := t.totalPrice
    totalDiscount := t.totalDiscount, isOpen := isOpen }

/-- The cart slice reducer. -/
def cartReducer (a : CartAction) (s : CartState) : CartState :=
  match a with
  | .addToCart p =>
    let items1 :=
      match s.items.find? (fun it => it.id == p.id) with
      | some _ => mutateFirst p.id (fun it => { it with quantity := it.quantity + 1 }) s.items
      | none => s.items ++
          [{ id := p.id, title := p.title, price := p.price, image := p.image
             quantity := 1, discount := p.discount }]
    withTotals items1 s.isOpen
  | .removeFromCart id =>
    withTotals (s.items.filter (fun it => it.id != id)) s.isOpen
  | .updateQuantity id q =>
    let items1 :=
      match s.items.find? (fun it => it.id == id) with
      | some _ =>
        let q1 := max 0 q
        if q1 = 0 then
          (mutateFirst id (fun it => { it with quantity := q1 }) s.items).filter
            (fun it => it.id != id)
        else mutateFirst id (fun it => { it with quantity := q1 }) s.items
      | none => s.items
    withTotals items1 s.isOpen
  | .clearCart =>
    { items := [], totalItems := 0, totalPrice := 0, totalDiscount := 0, isOpen := s.isOpen }
  | .setCartOpen b => { s with isOpen := b }

/-- The type of a wishlist price alert. -/
inductive AlertType where
  | percentage
  | price
deriving DecidableEq

/-- A wishlist price alert configuration. -/
structure Alert where
  type : AlertType
  value : ℚ
deriving DecidableEq

/-- A wishlist entry: a product snapshot plus an optional alert. -/
structure WishlistItemData where
  id : ℤ
  title : Str
  price : ℚ
  image : Str
  discount : Discount
  alert : Option Alert
deriving DecidableEq

/-- isAlertFulfilled from WishlistItem.tsx. -/
def isAlertFulfilled (item : WishlistItemData) : Bool :=
  match item.alert with
  | none => false
  | some a =>
    match a.type with
    | .price => decide (item.discount.discountedPrice ≤ a.value)
    | .percentage => decide ((item.discount.percentage : ℚ) ≥ a.value)

/-- Insert an element into a list, placing it before the first element b
with le a b. Folding this over a list from the right is a stable sort for
the total preorder decided by le; it models JavaScript Array.prototype.sort
(stable per the ECMAScript specification) called with a comparator cmp,
where le a b decides cmp(a, b) ≤ 0. -/
def insertBy (le : α → α → Bool) (a : α) : List α → List α
  | [] => [a]
  | b :: bs => if le a b then a :: b :: bs else b :: insertBy le a bs

/-- Stable sort by the boolean preorder le; see insertBy. -/
def stableSortBy (le : α → α → Bool) (l : List α) : List α :=
  l.foldr (insertBy le) []

/-- The comparator passed to sort in two.tsx (wishlist screen), expressed as
the boolean relation deciding cmp(a, b) ≤ 0: the comparator returns -1 when
a is fulfilled and b is not, 1 in the mirrored case and 0 otherwise. -/
def wishlistLe (a b : WishlistItemData) : Bool :=
  isAlertFulfilled a || !(isAlertFulfilled b)

/-- sortedItems from two.tsx: fulfilled alerts first, then the rest. -/
def sortedItems (items : List WishlistItemData) : List WishlistItemData :=
  stableSortBy wishlistLe items

/-- String.prototype.toLowerCase. -/
def strToLower (s : Str) : Str := s.map Char.toLower

/-- String.prototype.includes: substring containment. -/
def strHasSubstr (hay sub : Str) : Bool :=
  match hay with
  | [] => sub.isEmpty
  | _ :: rest => sub.isPrefixOf hay || strHasSubstr rest sub

/-- The search predicate of ProductGrid.tsx: the lowercased query occurs in
the lowercased title, description or category. -/
def matchesSearch (q : Str) (item : Product) : Bool :=
  strHasSubstr (strToLower item.title) (strToLower q) ||
  strHasSubstr (strToLower item.description) (strToLower q) ||
  strHasSubstr (strToLower item.category) (strToLower q)

/-- The four sort comparators of ProductGrid.tsx, each expressed as the
boolean relation deciding cmp(a, b) ≤ 0 for the numeric comparator passed
to sort. -/
def sortByLe (m : SortBy) (a b : Product) : Bool :=
  match m with
  | .biggestDiscount => decide (b.discount.percentage ≤ a.discount.percentage)
  | .biggestSaving => decide (b.discount.savings ≤ a.discount.savings)
  | .lowestPrice => decide (a.discount.discountedPrice ≤ b.discount.discountedPrice)
  | .highestPrice => decide (b.discount.discountedPrice ≤ a.discount.discountedPrice)

/-- filteredAndSortedItems from ProductGrid.tsx: the search filter when the
query is non-empty, then the category filter when the active set is
non-empty, then the selected sort. -/
def filteredAndSortedItems (items : List Product) (filters : Filters) : List Product :=
  let result := items
  let result := if filters.searchQuery.isEmpty then result
                else result.filter (matchesSearch filters.searchQuery)
  let result := if filters.category.isEmpty then result
                else result.filter (fun item => filters.category.contains item.category)
  stableSortBy (sortByLe filters.sortBy) result

/-- The sort criterion of the specification for each mode: descending
discount percentage, descending savings, ascending discounted price, or
descending discounted price. -/
def sortCriterion (m : SortBy) (a b : Product) : Prop :=
  match m with
  | .biggestDiscount => b.discount.percentage ≤ a.discount.percentage
  | .biggestSaving => b.discount.savings ≤ a.discount.savings
  | .lowestPrice => a.discount.discountedPrice ≤ b.discount.discountedPrice
  | .highestPrice => b.discount.discountedPrice ≤ a.discount.discountedPrice

/-- The per-line quantity sum of the specification. -/
def sumQuantities (items : List CartItem) : ℚ :=
  (items.map (fun it => it.quantity)).sum

/-- The per-line price times quantity sum of the specification. -/
def sumPrices (items : List CartItem) : ℚ :=
  (items.map (fun it => it.price * it.quantity)).sum

/-- The per-line discount savings sum of the specification. -/
def sumDiscounts (items : List CartItem) : ℚ :=
  (items.map (fun it => (it.price - it.discount.discountedPrice) * it.quantity)).sum

/-- The stored cart totals agree with the sums over the current line items. -/
@[reducible] def cartTotalsCorrect (s : CartState) : Prop :=
  s.totalItems = sumQuantities s.items ∧
  s.totalPrice = sumPrices s.items ∧
  s.totalDiscount = sumDiscounts s.items

/-- The structural discount invariant of the specification: a multiple of 5
between 10 and 50, a discounted price that is the 2-decimal rounding of the
marked-down price, and savings that are the 2-decimal rounding of the
difference. -/
@[reducible] def discountInvariant (price : ℚ) (d : Discount) : Prop :=
  10 ≤ d.percentage ∧ d.percentage ≤ 50 ∧ (5 : ℤ) ∣ d.percentage ∧
  d.discountedPrice = round2 (price * (1 - (d.percentage : ℚ) / 100)) ∧
  d.savings = round2 (price - d.discountedPrice)

theorem insertBy_perm (le : α → α → Bool) (a : α) (l : List α) :
    (insertBy le a l).Perm (a :: l) := by
  induction l with
  | nil => exact List.Perm.refl _
  | cons b bs ih =>
    by_cases h : le a b
    · rw [insertBy, if_pos h]
    · rw [insertBy, if_neg h]
      exact (ih.cons b).trans (List.Perm.swap a b bs)

theorem mem_insertBy {le : α → α → Bool} {a x : α} {l : List α} :
    x ∈ insertBy le a l ↔ x = a ∨ x ∈ l := by
  rw [(insertBy_perm le a l).mem_iff, List.mem_cons]

theorem pairwise_insertBy {le : α → α → Bool}
    (htot : ∀ a b, le a b = true ∨ le b a = true)
    (htrans : ∀ a b c, le a b = true → le b c = true → le a c = true)
    (a : α) {l : List α} (h : l.Pairwise (fun x y => le x y = true)) :
    (insertBy le a l).Pairwise (fun x y => le x y = true) := by
  induction l with
  | nil => simp [insertBy]
  | cons b bs ih =>
    rw [List.pairwise_cons] at h
    by_cases hab : le a b = true
    · rw [insertBy, if_pos hab]
      refine List.Pairwise.cons ?_ (List.Pairwise.cons h.1 h.2)
      intro y hy
      rcases List.mem_cons.mp hy with rfl | hy'
      · exact hab
      · exact htrans a b y hab (h.1 y hy')
    · rw [insertBy, if_neg hab]
      have hba : le b a = true := (htot a b).resolve_left hab
      refine List.Pairwise.cons ?_ (ih h.2)
      intro y hy
      rcases mem_insertBy.mp hy with rfl | hy'
      · exact hba
      · exact h.1 y hy'

theorem stableSortBy_perm (le : α → α → Bool) (l : List α) :
    (stableSortBy le l).Perm l := by
  induction l with
  | nil => exact List.Perm.refl _
  | cons a l ih => exact (insertBy_perm le a _).trans (ih.cons a)

theorem stableSortBy_pairwise {le : α → α → Bool}
    (htot : ∀ a b, le a b = true ∨ le b a = true)
    (htrans : ∀ a b c, le a b = true → le b c = true → le a c = true)
    (l : List α) :
    (stableSortBy le l).Pairwise (fun x y => le x y = true) := by
  induction l with
  | nil => exact List.Pairwise.nil
  | cons a l ih => exact pairwise_insertBy htot htrans a ih

theorem insertBy_front_of_wishlistLe {x : WishlistItemData} (l : List WishlistItemData)
    (h : ∀ b ∈ l, wishlistLe x b = true) :
    insertBy wishlistLe x l = x :: l := by
  cases l with
  | nil => rfl
  | cons b bs => rw [insertBy, if_pos (h b (List.mem_cons_self b bs))]

theorem insertBy_skip_fulfilled {x : WishlistItemData} (A B : List WishlistItemData)
    (hx : isAlertFulfilled x = false)
    (hA : ∀ a ∈ A, isAlertFulfilled a = true) :
    insertBy wishlistLe x (A ++ B) = A ++ insertBy wishlistLe x B := by
  induction A with
  | nil => rfl
  | cons a as ih =>
    have ha : isAlertFulfilled a = true := hA a (List.mem_cons_self a as)
    rw [List.cons_append, insertBy, if_neg (by simp [wishlistLe, hx, ha]),
      ih (fun b hb => hA b (List.mem_cons_of_mem a hb)), List.cons_append]

/-- C9: the derived wishlist ordering is a stable partition: it equals the
alert-fulfilled entries, in input order, followed by the non-fulfilled
entries, in input order, and is in particular a permutation of the input. -/
theorem sortedItems_stable_partition (items : List WishlistItemData) :
    sortedItems items =
      items.filter (fun it => isAlertFulfilled it) ++
        items.filter (fun it => !isAlertFulfilled it) ∧
    (sortedItems items).Perm items := by
  refine ⟨?_, stableSortBy_perm wishlistLe items⟩
  induction items with
  | nil => rfl
  | cons x xs ih =>
    have hstep : sortedItems (x :: xs) = insertBy wishlistLe x (sortedItems xs) := rfl
    rw [hstep, ih]
    cases hx : isAlertFulfilled x with
    | true =>
      rw [insertBy_front_of_wishlistLe _ (fun b _ => by simp [wishlistLe, hx])]
      simp [List.filter_cons, hx]
    | false =>
      rw [insertBy_skip_fulfilled _ _ hx
          (fun a ha => by simpa using (List.mem_filter.mp ha).2),
        insertBy_front_of_wishlistLe _
          (fun b hb => by
            have hbf := (List.mem_filter.mp hb).2
            simp only [Bool.not_eq_true'] at hbf
            simp [wishlistLe, hbf])]
      simp [List.filter_cons, hx]

/-- C8: an entry is alert-fulfilled exactly when it has an alert and either
the alert is a price alert with discounted price at most the alert value, or
a percentage alert with discount percentage at least the alert value; an
entry with no alert is never fulfilled. The predicate reads only the stored
discount snapshot of the entry. -/
theorem isAlertFulfilled_spec (item : WishlistItemData) :
    (isAlertFulfilled item = true ↔
      ∃ a, item.alert = some a ∧
        ((a.type = .price ∧ item.discount.discountedPrice ≤ a.value) ∨
         (a.type = .percentage ∧ (item.discount.percentage : ℚ) ≥ a.value))) ∧
    isAlertFulfilled { item with alert := none } = false := by
  refine ⟨?_, rfl⟩
  unfold isAlertFulfilled
  cases halert : item.alert with
  | none => simp
  | some a =>
    cases htype : a.type with
    | price => simp [htype]
    | percentage => simp [htype]

/-- C10: none of the three fetch lifecycle transitions changes the filter
criteria: the active category set, the sort mode and the search query are
exactly what they were before. -/
theorem fetch_lifecycle_preserves_filters (s : ProductsState)
    (payload : List Product) (msg : Option Str) :
    (productsReducer .fetchPending s).filters = s.filters ∧
    (productsReducer (.fetchFulfilled payload) s).filters = s.filters ∧
    (productsReducer (.fetchRejected msg) s).filters = s.filters :=
  ⟨rfl, rfl, rfl⟩

/-- C3 (amended): a successful fetch sets the status to succeeded and
replaces the items wholesale with the payload, but leaves the error field
unchanged rather than clearing it. -/
theorem fulfilled_spec (s : ProductsState) (payload : List Product) :
    (productsReducer (.fetchFulfilled payload) s).status = .succeeded ∧
    (productsReducer (.fetchFulfilled payload) s).items = payload ∧
    (productsReducer (.fetchFulfilled payload) s).error = s.error :=
  ⟨rfl, rfl, rfl⟩

/-- A catalog state with a recorded error, as left behind by a failed fetch. -/
def sampleErrorState : ProductsState :=
  { items := [], status := .failed, error := some "boom".data
    filters := { category := [], sortBy := .biggestDiscount, searchQuery := [] } }

/-- C3 counterexample: on a state whose error field holds a message, a
successful fetch sets status to succeeded but leaves the error in place, so
the error field is not reset to its empty state as claimed. -/
theorem fulfilled_does_not_clear_error :
    (productsReducer (.fetchFulfilled []) sampleErrorState).status = .succeeded ∧
    (productsReducer (.fetchFulfilled []) sampleErrorState).error = some "boom".data ∧
    (productsReducer (.fetchFulfilled []) sampleErrorState).error ≠ none :=
  ⟨rfl, rfl, by decide⟩

/-- C4 (amended): a failed fetch sets the status to failed, stores the
upstream message when one is present and the generic failure string
otherwise, and leaves the items untouched; the stored error is the empty
string exactly when the upstream error carried an empty message. -/
theorem rejected_spec (s : ProductsState) (msg : Option Str) :
    (productsReducer (.fetchRejected msg) s).status = .failed ∧
    (productsReducer (.fetchRejected msg) s).items = s.items ∧
    (productsReducer (.fetchRejected msg) s).error = some (msg.getD failedFetchMsg) ∧
    (msg.getD failedFetchMsg = ([] : Str) ↔ msg = some ([] : Str)) := by
  refine ⟨rfl, rfl, rfl, ?_⟩
  cases msg with
  | none => decide
  | some m => simp

/-- C4 counterexample: when the upstream error carries an empty message, the
reducer stores that empty message verbatim, so the recorded error is the
empty string rather than a non-empty one. -/
theorem rejected_empty_message_gives_empty_error :
    (productsReducer (.fetchRejected (some [])) productsInitialState).status = .failed ∧
    (productsReducer (.fetchRejected (some [])) productsInitialState).error = some ([] : Str) :=
  ⟨rfl, rfl⟩

theorem mathFloor_eq (q : ℚ) : mathFloor q = ⌊q⌋ := rfl

theorem mathRound_eq (q : ℚ) : mathRound q = ⌊q + 1 / 2⌋ := rfl

theorem mathFloor_draw_bounds {r : ℚ} (h0 : 0 ≤ r) (h1 : r < 1) :
    10 ≤ mathFloor (r * (50 - 10 + 1) + 10) ∧ mathFloor (r * (50 - 10 + 1) + 10) ≤ 50 := by
  constructor
  · rw [mathFloor_eq, Int.le_floor]
    push_cast
    nlinarith
  · have hlt : mathFloor (r * (50 - 10 + 1) + 10) < 51 := by
      rw [mathFloor_eq, Int.floor_lt]
      push_cast
      nlinarith
    omega

theorem mathRound_fifth_bounds {z : ℤ} (hlo : 10 ≤ z) (hhi : z ≤ 50) :
    10 ≤ mathRound ((z : ℚ) / 5) * 5 ∧ mathRound ((z : ℚ) / 5) * 5 ≤ 50 := by
  have hzlo : (10 : ℚ) ≤ (z : ℚ) := by exact_mod_cast hlo
  have hzhi : (z : ℚ) ≤ 50 := by exact_mod_cast hhi
  have h2 : (2 : ℤ) ≤ mathRound ((z : ℚ) / 5) := by
    rw [mathRound_eq, Int.le_floor]
    push_cast
    linarith
  have h10 : mathRound ((z : ℚ) / 5) ≤ 10 := by
    have : mathRound ((z : ℚ) / 5) < 11 := by
      rw [mathRound_eq, Int.floor_lt]
      push_cast
      linarith
    omega
  constructor <;> nlinarith

theorem generateDiscount_invariant (price r : ℚ) (h0 : 0 ≤ r) (h1 : r < 1) :
    discountInvariant price (generateDiscount price r) := by
  obtain ⟨hlo, hhi⟩ := mathFloor_draw_bounds h0 h1
  obtain ⟨plo, phi⟩ := mathRound_fifth_bounds hlo hhi
  exact ⟨plo, phi, dvd_mul_left 5 _, rfl, rfl⟩

theorem fetchTransform_invariant (rng : Nat → ℚ) (h : ∀ n, 0 ≤ rng n ∧ rng n < 1) :
    ∀ (i : Nat) (raw : List RawProduct),
      ∀ p ∈ fetchTransform rng i raw, discountInvariant p.price p.discount := by
  intro i raw
  induction raw generalizing i with
  | nil => intro p hp; simp [fetchTransform] at hp
  | cons x xs ih =>
    intro p hp
    rw [fetchTransform] at hp
    rcases List.mem_cons.mp hp with rfl | hp'
    · exact generateDiscount_invariant x.price (rng i) (h i).1 (h i).2
    · exact ih (i + 1) p hp'

theorem regenerateItems_invariant (rng : Nat → ℚ) (h : ∀ n, 0 ≤ rng n ∧ rng n < 1) :
    ∀ (i : Nat) (items : List Product),
      ∀ p ∈ regenerateItems rng i items, discountInvariant p.price p.discount := by
  intro i items
  induction items generalizing i with
  | nil => intro p hp; simp [regenerateItems] at hp
  | cons x xs ih =>
    intro p hp
    rw [regenerateItems] at hp
    rcases List.mem_cons.mp hp with rfl | hp'
    · exact generateDiscount_invariant x.price (rng i) (h i).1 (h i).2
    · exact ih (i + 1) p hp'

/-- C1: after a successful fetch whose payload was built by the thunk's
transform, and after a regenerateDiscounts action, every held product
carries a discount whose percentage is a multiple of 5 in the interval from
10 to 50, whose discounted price is the 2-decimal rounding of the marked
down price, and whose savings are the 2-decimal rounding of the difference;
this holds for every possible sequence of unit-interval random draws. -/
theorem catalog_discount_invariant (rng : Nat → ℚ) (h : ∀ n, 0 ≤ rng n ∧ rng n < 1) :
    (∀ (raw : List RawProduct) (s : ProductsState),
      ∀ p ∈ (productsReducer (.fetchFulfilled (fetchTransform rng 0 raw)) s).items,
        discountInvariant p.price p.discount) ∧
    (∀ s : ProductsState,
      ∀ p ∈ (productsReducer (.regenerateDiscounts rng) s).items,
        discountInvariant p.price p.discount) :=
  ⟨fun raw _ p hp => fetchTransform_invariant rng h 0 raw p hp,
   fun s p hp => regenerateItems_invariant rng h 0 s.items p hp⟩

/-- A sample raw product record for witnesses. -/
def sampleRaw : RawProduct :=
  { id := 1, title := "Slim Fit T-Shirt".data, price := 10
    description := "A shirt".data, category := "men's clothing".data, image := "x.png".data }

/-- Witness for C1: the invariant theorem applied to a one-element catalog
with the constant draw one half. -/
theorem catalog_discount_invariant_witness :
    ((0 : ℚ) ≤ 1 / 2 ∧ (1 / 2 : ℚ) < 1) ∧
      discountInvariant (10 : ℚ) (generateDiscount 10 (1 / 2)) :=
  have hc : (0 : ℚ) ≤ 1 / 2 ∧ (1 / 2 : ℚ) < 1 := ⟨by decide, by decide⟩
  ⟨hc, (catalog_discount_invariant (fun _ => 1 / 2) (fun _ => hc)).1
      [sampleRaw] productsInitialState _ (List.Mem.head _)⟩

theorem calculateTotals_go (acc : Totals) (items : List CartItem) :
    List.foldl
      (fun acc item =>
        let itemTotal := item.price * item.quantity
        let discountedTotal := item.discount.discountedPrice * item.quantity
        { totalItems := acc.totalItems + item.quantity
          totalPrice := acc.totalPrice + itemTotal
          totalDiscount := acc.totalDiscount + (itemTotal - discountedTotal) })
      acc items =
      { totalItems := acc.totalItems + sumQuantities items
        totalPrice := acc.totalPrice + sumPrices items
        totalDiscount := acc.totalDiscount + sumDiscounts items } := by
  induction items generalizing acc with
  | nil => simp [sumQuantities, sumPrices, sumDiscounts]
  | cons x xs ih =>
    rw [List.foldl_cons, ih]
    simp only [sumQuantities, sumPrices, sumDiscounts, List.map_cons, List.sum_cons,
      Totals.mk.injEq]
    refine ⟨by ring, by ring, by ring⟩

theorem calculateTotals_eq (items : List CartItem) :
    calculateTotals items =
      { totalItems := sumQuantities items, totalPrice := sumPrices items
        totalDiscount := sumDiscounts items } := by
  rw [calculateTotals, calculateTotals_go]
  simp

theorem withTotals_correct (items : List CartItem) (o : Bool) :
    cartTotalsCorrect (withTotals items o) := by
  unfold cartTotalsCorrect withTotals
  rw [calculateTotals_eq]
  exact ⟨rfl, rfl, rfl⟩

/-- C2: every cart reducer leaves the three stored totals equal to the sums
over the current line items: total item count, total undiscounted price, and
total discount savings. -/
theorem cart_totals_never_drift (a : CartAction) (s : CartState)
    (h : cartTotalsCorrect s) : cartTotalsCorrect (cartReducer a s) := by
  cases a with
  | addToCart p => exact withTotals_correct _ _
  | removeFromCart id => exact withTotals_correct _ _
  | updateQuantity id q => exact withTotals_correct _ _
  | clearCart =>
    refine ⟨?_, ?_, ?_⟩ <;> simp [cartReducer, sumQuantities, sumPrices, sumDiscounts]
  | setCartOpen b => exact h

/-- A sample snapshot payload for witnesses. -/
def sampleSnap : CartSnapshot :=
  { id := 1, title := "Backpack".data, price := 10, image := "b.png".data
    discount := { percentage := 20, discountedPrice := 8, savings := 2 } }

/-- A one-line sample cart for witnesses. -/
def sampleCart : CartState := cartReducer (.addToCart sampleSnap) cartInitialState

/-- Witness for C2: the preservation theorem applied to the drawer toggle on
a concrete one-line cart. -/
theorem cart_totals_never_drift_witness :
    cartTotalsCorrect sampleCart ∧
      cartTotalsCorrect (cartReducer (.setCartOpen true) sampleCart) :=
  ⟨by decide, cart_totals_never_drift (.setCartOpen true) sampleCart (by decide)⟩

theorem mutateFirst_of_not_mem {id : ℤ} (f : CartItem → CartItem) {l : List CartItem}
    (h : ∀ it ∈ l, it.id ≠ id) : mutateFirst id f l = l := by
  induction l with
  | nil => rfl
  | cons x xs ih =>
    rw [mutateFirst, if_neg (h x (List.mem_cons_self x xs)),
      ih (fun it hit => h it (List.mem_cons_of_mem x hit))]

theorem mutateFirst_append {id : ℤ} (f : CartItem → CartItem) {A : List CartItem}
    (B : List CartItem) (h : ∀ it ∈ A, it.id ≠ id) :
    mutateFirst id f (A ++ B) = A ++ mutateFirst id f B := by
  induction A with
  | nil => rfl
  | cons x xs ih =>
    rw [List.cons_append, mutateFirst, if_neg (h x (List.mem_cons_self x xs)),
      ih (fun it hit => h it (List.mem_cons_of_mem x hit)), List.cons_append]

theorem mutateFirst_eq_map {id : ℤ} (f : CartItem → CartItem) {l : List CartItem}
    (hnd : (l.map CartItem.id).Nodup) (hmem : ∃ it ∈ l, it.id = id) :
    mutateFirst id f l = l.map (fun it => if it.id = id then f it else it) := by
  induction l with
  | nil => simp at hmem
  | cons x xs ih =>
    rw [List.map_cons, List.nodup_cons] at hnd
    by_cases hx : x.id = id
    · rw [mutateFirst, if_pos hx, List.map_cons, if_pos hx]
      have hno : ∀ it ∈ xs, it.id ≠ id := by
        intro it hit heq
        exact hnd.1 (hx ▸ heq ▸ List.mem_map_of_mem CartItem.id hit)
      have : xs.map (fun it => if it.id = id then f it else it) = xs.map (fun a => a) := by
        apply List.map_congr_left
        intro a ha
        rw [if_neg (hno a ha)]
      rw [this, List.map_id']
    · rw [mutateFirst, if_neg hx, List.map_cons, if_neg hx]
      rcases hmem with ⟨it, hit, hid⟩
      rcases List.mem_cons.mp hit with rfl | h'
      · exact absurd hid hx
      · rw [ih hnd.2 ⟨it, h', hid⟩]

theorem filter_mutateFirst {id : ℤ} (f : CartItem → CartItem)
    (hf : ∀ it, (f it).id = it.id) (l : List CartItem) :
    (mutateFirst id f l).filter (fun it => it.id != id) =
      l.filter (fun it => it.id != id) := by
  induction l with
  | nil => rfl
  | cons x xs ih =>
    by_cases hx : x.id = id
    · rw [mutateFirst, if_pos hx, List.filter_cons, List.filter_cons]
      have h1 : ((f x).id != id) = false := by simp [hf x, hx]
      have h2 : (x.id != id) = false := by simp [hx]
      rw [h1, h2]
      simp
    · rw [mutateFirst, if_neg hx, List.filter_cons, List.filter_cons]
      have h1 : (x.id != id) = true := by simp [hx]
      rw [h1]
      simp only [ih]

theorem cartReducer_addToCart_eq (p : CartSnapshot) (s : CartState) :
    cartReducer (.addToCart p) s =
      withTotals
        (match s.items.find? (fun it => it.id == p.id) with
         | some _ => mutateFirst p.id (fun it => { it with quantity := it.quantity + 1 }) s.items
         | none => s.items ++
             [{ id := p.id, title := p.title, price := p.price, image := p.image
                quantity := 1, discount := p.discount }])
        s.isOpen := rfl

theorem cartReducer_updateQuantity_eq (i : ℤ) (q : ℚ) (s : CartState) :
    cartReducer (.updateQuantity i q) s =
      withTotals
        (match s.items.find? (fun it => it.id == i) with
         | some _ =>
           if max 0 q = 0 then
             (mutateFirst i (fun it => { it with quantity := max 0 q }) s.items).filter
               (fun it => it.id != i)
           else mutateFirst i (fun it => { it with quantity := max 0 q }) s.items
         | none => s.items)
        s.isOpen := rfl

/-- C5: addToCart appends a brand-new line with quantity one when no line
with the payload id exists; when such a line exists it only increments that
line's quantity, leaving its snapshot fields, all other lines, and the line
count unchanged; and adding the same snapshot twice leaves exactly one line
with that id, holding quantity two. -/
theorem addToCart_spec (p : CartSnapshot) (s : CartState) :
    ((∀ it ∈ s.items, it.id ≠ p.id) →
      (cartReducer (.addToCart p) s).items =
        s.items ++ [{ id := p.id, title := p.title, price := p.price, image := p.image
                      quantity := 1, discount := p.discount }]) ∧
    ((s.items.map CartItem.id).Nodup → (∃ it ∈ s.items, it.id = p.id) →
      (cartReducer (.addToCart p) s).items =
        s.items.map (fun j => if j.id = p.id then { j with quantity := j.quantity + 1 } else j) ∧
      (cartReducer (.addToCart p) s).items.length = s.items.length) ∧
    ((∀ it ∈ s.items, it.id ≠ p.id) →
      (cartReducer (.addToCart p) (cartReducer (.addToCart p) s)).items.filter
          (fun it => it.id == p.id) =
        [{ id := p.id, title := p.title, price := p.price, image := p.image
           quantity := 2, discount := p.discount }]) := by
  have key : ∀ t : CartState, (∀ it ∈ t.items, it.id ≠ p.id) →
      (cartReducer (.addToCart p) t).items =
        t.items ++ [{ id := p.id, title := p.title, price := p.price, image := p.image
                      quantity := 1, discount := p.discount }] := by
    intro t ht
    have hf : t.items.find? (fun it => it.id == p.id) = none :=
      List.find?_eq_none.mpr (fun x hx => by simpa using ht x hx)
    rw [cartReducer_addToCart_eq, hf]
    rfl
  refine ⟨key s, ?_, ?_⟩
  · intro hnd hmem
    have hsome : (s.items.find? (fun it => it.id == p.id)).isSome := by
      apply List.find?_isSome.mpr
      rcases hmem with ⟨it, hit, hid⟩
      exact ⟨it, hit, by simp [hid]⟩
    obtain ⟨y, hy⟩ := Option.isSome_iff_exists.mp hsome
    rw [cartReducer_addToCart_eq, hy]
    constructor
    · exact mutateFirst_eq_map (fun it => { it with quantity := it.quantity + 1 }) hnd hmem
    · show (mutateFirst p.id (fun it => { it with quantity := it.quantity + 1 })
          s.items).length = s.items.length
      rw [mutateFirst_eq_map (fun it => { it with quantity := it.quantity + 1 }) hnd hmem,
        List.length_map]
  · intro h
    have hitems := key s h
    have hsome :
        ((cartReducer (.addToCart p) s).items.find? (fun it => it.id == p.id)).isSome := by
      apply List.find?_isSome.mpr
      refine ⟨{ id := p.id, title := p.title, price := p.price, image := p.image
                quantity := 1, discount := p.discount }, ?_, ?_⟩
      · rw [hitems]
        exact List.mem_append_right _ (List.Mem.head _)
      · simp
    obtain ⟨y, hy⟩ := Option.isSome_iff_exists.mp hsome
    rw [cartReducer_addToCart_eq, hy]
    show ((mutateFirst p.id (fun it => { it with quantity := it.quantity + 1 })
        (cartReducer (.addToCart p) s).items).filter (fun it => it.id == p.id)) = _
    rw [hitems, mutateFirst_append _ _ h, List.filter_append]
    have hnil : s.items.filter (fun it => it.id == p.id) = [] := by
      rw [List.filter_eq_nil_iff]
      intro a ha
      simp [h a ha]
    rw [hnil, List.nil_append]
    simp [mutateFirst]
    norm_num

/-- C6: updateQuantity clamps the requested quantity at zero; with a
non-positive request the line with the given id is removed, with a positive
request only that line's quantity is overwritten, and when no line carries
the id the state is returned unchanged. -/
theorem updateQuantity_spec (i : ℤ) (q : ℚ) (s : CartState) :
    ((∃ it ∈ s.items, it.id = i) → q ≤ 0 →
      (cartReducer (.updateQuantity i q) s).items =
        s.items.filter (fun it => it.id != i)) ∧
    ((s.items.map CartItem.id).Nodup → (∃ it ∈ s.items, it.id = i) → 0 < q →
      (cartReducer (.updateQuantity i q) s).items =
        s.items.map (fun it => if it.id = i then { it with quantity := q } else it)) ∧
    ((∀ it ∈ s.items, it.id ≠ i) → cartTotalsCorrect s →
      cartReducer (.updateQuantity i q) s = s) := by
  refine ⟨?_, ?_, ?_⟩
  · intro hmem hq
    have hsome : (s.items.find? (fun it => it.id == i)).isSome := by
      apply List.find?_isSome.mpr
      rcases hmem with ⟨it, hit, hid⟩
      exact ⟨it, hit, by simp [hid]⟩
    obtain ⟨y, hy⟩ := Option.isSome_iff_exists.mp hsome
    have hmax : max 0 q = 0 := max_eq_left hq
    rw [cartReducer_updateQuantity_eq, hy, if_pos hmax]
    exact filter_mutateFirst (fun it => { it with quantity := max 0 q }) (fun it => rfl) s.items
  · intro hnd hmem hq
    have hsome : (s.items.find? (fun it => it.id == i)).isSome := by
      apply List.find?_isSome.mpr
      rcases hmem with ⟨it, hit, hid⟩
      exact ⟨it, hit, by simp [hid]⟩
    obtain ⟨y, hy⟩ := Option.isSome_iff_exists.mp hsome
    have hmax : max 0 q = q := max_eq_right hq.le
    have hne : ¬(max 0 q = 0) := by rw [hmax]; exact hq.ne'
    rw [cartReducer_updateQuantity_eq, hy, if_neg hne]
    show mutateFirst i (fun it => { it with quantity := max 0 q }) s.items = _
    simp only [hmax]
    exact mutateFirst_eq_map _ hnd hmem
  · intro habs hcorr
    have hf : s.items.find? (fun it => it.id == i) = none :=
      List.find?_eq_none.mpr (fun x hx => by simpa using habs x hx)
    rw [cartReducer_updateQuantity_eq, hf]
    obtain ⟨items, ti, tp, td, o⟩ := s
    obtain ⟨h1, h2, h3⟩ := hcorr
    unfold withTotals
    rw [calculateTotals_eq]
    simp_all

theorem sortByLe_total (m : SortBy) (a b : Product) :
    sortByLe m a b = true ∨ sortByLe m b a = true := by
  cases m <;> simp only [sortByLe, decide_eq_true_eq] <;> exact le_total _ _

theorem sortByLe_trans (m : SortBy) (a b c : Product) :
    sortByLe m a b = true → sortByLe m b c = true → sortByLe m a c = true := by
  cases m <;> simp only [sortByLe, decide_eq_true_eq] <;> intro h1 h2 <;>
    first
    | exact le_trans h2 h1
    | exact le_trans h1 h2

theorem sortByLe_eq_criterion (m : SortBy) (a b : Product) :
    sortByLe m a b = true ↔ sortCriterion m a b := by
  cases m <;> simp [sortByLe, sortCriterion]

theorem search_step_eq (items : List Product) (fl : Filters) :
    (if fl.searchQuery.isEmpty then items
     else items.filter (matchesSearch fl.searchQuery)) =
      items.filter (fun it => fl.searchQuery.isEmpty || matchesSearch fl.searchQuery it) := by
  by_cases h : fl.searchQuery.isEmpty <;> simp [h]

theorem category_step_eq (items : List Product) (fl : Filters) :
    (if fl.category.isEmpty then items
     else items.filter (fun it => fl.category.contains it.category)) =
      items.filter (fun it => fl.category.isEmpty || fl.category.contains it.category) := by
  by_cases h : fl.category.isEmpty <;> simp [h]

theorem filteredAndSortedItems_eq (items : List Product) (fl : Filters) :
    filteredAndSortedItems items fl =
      stableSortBy (sortByLe fl.sortBy)
        (items.filter (fun it =>
          (fl.searchQuery.isEmpty || matchesSearch fl.searchQuery it) &&
          (fl.category.isEmpty || fl.category.contains it.category))) := by
  simp only [filteredAndSortedItems]
  rw [category_step_eq, search_step_eq, List.filter_filter]
  congr 1
  apply List.filter_congr
  intro a _
  exact Bool.and_comm _ _

/-- C7: the visible catalog sequence holds exactly the products that pass
the search match (trivially when the query is empty) and the category
filter (trivially when the active set is empty), it is ordered by the
active sort criterion, and it is a permutation of the doubly filtered
product list. -/
theorem filteredAndSortedItems_spec (items : List Product) (fl : Filters) :
    (∀ p, p ∈ filteredAndSortedItems items fl ↔
        p ∈ items ∧ (fl.searchQuery = [] ∨ matchesSearch fl.searchQuery p = true) ∧
          (fl.category = [] ∨ p.category ∈ fl.category)) ∧
    (filteredAndSortedItems items fl).Pairwise (sortCriterion fl.sortBy) ∧
    (filteredAndSortedItems items fl).Perm
      (items.filter (fun it =>
        (fl.searchQuery.isEmpty || matchesSearch fl.searchQuery it) &&
        (fl.category.isEmpty || fl.category.contains it.category))) := by
  refine ⟨?_, ?_, ?_⟩
  · intro p
    rw [filteredAndSortedItems_eq, (stableSortBy_perm _ _).mem_iff, List.mem_filter]
    simp only [Bool.and_eq_true, Bool.or_eq_true, List.isEmpty_iff, decide_eq_true_eq]
    constructor
    · rintro ⟨hmem, ⟨hs, hc⟩⟩
      refine ⟨hmem, ?_, ?_⟩
      · rcases hs with hs | hs
        · exact Or.inl hs
        · exact Or.inr hs
      · rcases hc with hc | hc
        · exact Or.inl hc
        · exact Or.inr (List.elem_iff.mp hc)
    · rintro ⟨hmem, hs, hc⟩
      refine ⟨hmem, ?_, ?_⟩
      · rcases hs with hs | hs
        · exact Or.inl hs
        · exact Or.inr hs
      · rcases hc with hc | hc
        · exact Or.inl hc
        · exact Or.inr (List.elem_iff.mpr hc)
  · rw [filteredAndSortedItems_eq]
    refine List.Pairwise.imp ?_
      (stableSortBy_pairwise (sortByLe_total fl.sortBy) (sortByLe_trans fl.sortBy) _)
    intro a b h
    exact (sortByLe_eq_criterion _ _ _).mp h
  · rw [filteredAndSortedItems_eq]
    exact stableSortBy_perm _ _

/-- Witness for C5: the addToCart theorem applied to a concrete empty cart,
once for the fresh insert and once for the double add. -/
theorem addToCart_spec_witness :
    (cartReducer (.addToCart sampleSnap) cartInitialState).items =
      [{ id := 1, title := "Backpack".data, price := 10, image := "b.png".data
         quantity := 1, discount := { percentage := 20, discountedPrice := 8, savings := 2 } }] ∧
    (cartReducer (.addToCart sampleSnap)
        (cartReducer (.addToCart sampleSnap) cartInitialState)).items.filter
        (fun it => it.id == (1 : ℤ)) =
      [{ id := 1, title := "Backpack".data, price := 10, image := "b.png".data
         quantity := 2, discount := { percentage := 20, discountedPrice := 8, savings := 2 } }] :=
  ⟨((addToCart_spec sampleSnap cartInitialState).1 (by decide)).trans (by decide),
   ((addToCart_spec sampleSnap cartInitialState).2.2 (by decide)).trans (by decide)⟩

/-- Witness for C6: the updateQuantity theorem applied to a concrete
one-line cart: a zero request and a negative request both delete the line, a
positive request overwrites the quantity, and an absent id is a no-op. -/
theorem updateQuantity_spec_witness :
    (cartReducer (.updateQuantity 1 0) sampleCart).items = [] ∧
    (cartReducer (.updateQuantity 1 (-5)) sampleCart).items = [] ∧
    (cartReducer (.updateQuantity 1 3) sampleCart).items =
      [{ id := 1, title := "Backpack".data, price := 10, image := "b.png".data
         quantity := 3, discount := { percentage := 20, discountedPrice := 8, savings := 2 } }] ∧
    cartReducer (.updateQuantity 2 3) sampleCart = sampleCart :=
  ⟨((updateQuantity_spec 1 0 sampleCart).1 (by decide) (by decide)).trans (by decide),
   ((updateQuantity_spec 1 (-5) sampleCart).1 (by decide) (by decide)).trans (by decide),
   ((updateQuantity_spec 1 3 sampleCart).2.1 (by decide) (by decide) (by decide)).trans
     (by decide),
   (updateQuantity_spec 2 3 sampleCart).2.2 (by decide) (by decide)⟩
